import Mathlib

/-!
# Verification of the two-client turn-taking arbiter

Shallow embedding of `src/server.py` and `src/client.py`.

The server keeps a shared integer `turn` (starting at 1) guarded by a lock.
Each connected client gets a handler thread running `handle_client`; one
iteration of its inner loop runs entirely under the lock, so a whole-server
execution is a sequence of atomic handler iterations interleaved with the
main thread's two `accept` calls.  We model one locked iteration as the
function `handle_client_step`, the whole server as the labelled transition
function `sysStep` over `SysState`, and a finite execution as `runSys` over
a list of scheduler events.  The client loop body is `client_step`.
-/

/-- The two signals the server sends: `b"GO"` (server.py line 18) and
`b"WAIT"` (line 28). -/
inductive Signal
  | GO
  | WAIT
deriving DecidableEq

/-- The two connection-level error kinds named in the handler's `except`
clause (server.py line 32). -/
inductive ConnErr
  | reset
  | brokenPipe
deriving DecidableEq

/-- Exception kinds relevant to `handle_client`.  `valueError` is what the
unpacking `client_name, number = data.split(":")` raises when the split does
not yield exactly two fields (server.py line 23). -/
inductive PyError
  | connectionReset
  | brokenPipe
  | valueError
deriving DecidableEq

def ConnErr.toPyError : ConnErr → PyError
  | .reset => .connectionReset
  | .brokenPipe => .brokenPipe

/-- Which exceptions the `except (ConnectionResetError, BrokenPipeError)`
clause of `handle_client` catches (server.py line 32). -/
def caughtByHandler : PyError → Bool
  | .connectionReset => true
  | .brokenPipe => true
  | .valueError => false

/-- What the network does during the I/O of one locked handler iteration:
either bytes arrive (`reply ""` models `conn.recv` returning empty because
the peer closed its write side), or a connection error is raised. -/
inductive NetInput
  | reply (data : String)
  | connError (e : ConnErr)
deriving DecidableEq

/-- How one locked iteration of `handle_client` leaves the handler: still
looping; returned through the empty-read `return` (server.py line 21);
stopped through the `except` clause and its `break` (lines 32-34); or killed
by an exception the `except` clause does not catch. -/
inductive HandlerResult
  | running
  | returned
  | disconnected
  | crashed
deriving DecidableEq

/-- Python's `str.split(":")` on the character list: cut at every colon,
keeping empty fields, so the result always has one more field than the
string has colons. -/
def splitColon : List Char → List (List Char)
  | [] => [[]]
  | c :: rest =>
    match splitColon rest with
    | [] => []
    | g :: gs => if c = ':' then [] :: g :: gs else (c :: g) :: gs

/-- `data.split(":")` (server.py line 23) as a list of strings. -/
def pySplitColon (data : String) : List String :=
  (splitColon data.toList).map fun cs => String.mk cs

/-- `client_name, number = data.split(":")` (server.py line 23): succeeds iff
splitting `data` on `":"` yields exactly two fields, otherwise it raises a
`ValueError`. -/
def splitParse (data : String) : Except PyError (String × String) :=
  match pySplitColon data with
  | [client_name, number] => Except.ok (client_name, number)
  | _ => Except.error PyError.valueError

/-- `turn = 2 if client_id == 1 else 1` (server.py line 26). -/
def otherId (client_id : Nat) : Nat :=
  if client_id = 1 then 2 else 1

/-- Observable outcome of one locked iteration of `handle_client`: the value
of `turn` when the lock is released, how the iteration left the handler,
which signal was sent to this session's client, the `(client_name, number)`
pair accepted (and printed) if any, and whether the disconnect message of
server.py line 33 was printed. -/
structure StepOut where
  turn : Nat
  result : HandlerResult
  sent : Option Signal
  accepted : Option (String × String)
  loggedDisconnect : Bool
deriving DecidableEq

/-- One iteration of the loop of `handle_client` (server.py lines 13-34),
executed while holding `lock`.  If `turn == client_id` the handler sends
`GO`, blocks in `recv`, returns on an empty read, otherwise parses the
payload: on success it prints the message and flips `turn`; a `ValueError`
from the unpacking is not caught by the `except` clause and kills the
thread.  If `turn != client_id` the handler sends `WAIT` and leaves `turn`
alone.  A `ConnectionResetError`/`BrokenPipeError` anywhere in the body is
caught, logged and ends the handler via `break`. -/
def handle_client_step (client_id turn : Nat) (input : NetInput) : StepOut :=
  match input with
  | NetInput.connError e =>
    if caughtByHandler e.toPyError then
      ⟨turn, HandlerResult.disconnected, none, none, true⟩
    else
      ⟨turn, HandlerResult.crashed, none, none, false⟩
  | NetInput.reply data =>
    if turn = client_id then
      if data = "" then
        ⟨turn, HandlerResult.returned, some Signal.GO, none, false⟩
      else
        match splitParse data with
        | Except.ok m =>
          ⟨otherId client_id, HandlerResult.running, some Signal.GO, some m, false⟩
        | Except.error e =>
          if caughtByHandler e then
            ⟨turn, HandlerResult.disconnected, some Signal.GO, none, true⟩
          else
            ⟨turn, HandlerResult.crashed, some Signal.GO, none, false⟩
    else
      ⟨turn, HandlerResult.running, some Signal.WAIT, none, false⟩

/-- Lifecycle of one session slot of the server: not yet accepted, handler
thread running, or one of the three ways a handler iteration can end it. -/
inductive Status
  | notSpawned
  | active
  | returned
  | disconnected
  | crashed
deriving DecidableEq

/-- The session's handler thread has ended (by `return`, by the caught
disconnect, or by an uncaught exception). -/
def Status.isTerminated : Status → Bool
  | .returned => true
  | .disconnected => true
  | .crashed => true
  | _ => false

/-- Whole-server state: how many connections the main thread's `accept`
calls have completed (server.py lines 43-49), the shared `turn` variable
(line 8), and the status of each of the two session slots. -/
structure SysState where
  accepted : Nat
  turn : Nat
  status1 : Status
  status2 : Status
deriving DecidableEq

def SysState.statusOf (s : SysState) (id : Nat) : Status :=
  if id = 1 then s.status1 else s.status2

/-- Server startup state: `turn = 1` (server.py line 8), no connection
accepted yet, no handler spawned. -/
def initSys : SysState := ⟨0, 1, Status.notSpawned, Status.notSpawned⟩

def resultStatus : HandlerResult → Status
  | .running => .active
  | .returned => .returned
  | .disconnected => .disconnected
  | .crashed => .crashed

/-- Scheduler events: the main thread completes an `accept` (spawning the
next handler), or the handler of session `id` runs one locked iteration with
the given network behaviour. -/
inductive Event
  | connect
  | handler (id : Nat) (input : NetInput)
deriving DecidableEq

/-- One labelled transition of the whole server.  `connect` is only possible
while fewer than two connections were accepted — the main thread calls
`accept` exactly twice (server.py lines 43-49), giving identity 1 to the
first connection and 2 to the second.  A handler event is only possible for
a spawned, still-running session; it runs `handle_client_step` atomically
under the lock.  Impossible events yield `none`. -/
def sysStep (s : SysState) : Event → Option (SysState × Option (Nat × StepOut))
  | Event.connect =>
    if s.accepted < 2 then
      some (⟨s.accepted + 1, s.turn,
             if s.accepted = 0 then Status.active else s.status1,
             if s.accepted = 1 then Status.active else s.status2⟩, none)
    else none
  | Event.handler id input =>
    if (id = 1 ∨ id = 2) ∧ s.statusOf id = Status.active then
      let out := handle_client_step id s.turn input
      some (⟨s.accepted, out.turn,
             if id = 1 then resultStatus out.result else s.status1,
             if id = 2 then resultStatus out.result else s.status2⟩,
            some (id, out))
    else none

/-- Run the server over a list of scheduler events, skipping impossible
events, collecting the executed handler iterations. -/
def runSys (s : SysState) : List Event → SysState × List (Nat × StepOut)
  | [] => (s, [])
  | e :: es =>
    match sysStep s e with
    | none => runSys s es
    | some (s', log) => ((runSys s' es).1, log.toList ++ (runSys s' es).2)

/-- The messages accepted (and printed) during an execution, tagged with the
identity of the session that delivered them. -/
def acceptedLog (l : List (Nat × StepOut)) : List (Nat × String × String) :=
  l.filterMap fun p => (p.2.accepted).map fun m => (p.1, m)

/-- The identities of the sessions whose messages were accepted, in order,
for an execution from server startup. -/
def acceptedIds (trace : List Event) : List Nat :=
  (acceptedLog (runSys initSys trace).2).map Prod.fst

/-- The length-`n` alternating identity sequence starting at `t`. -/
def altFrom (t : Nat) : Nat → List Nat
  | 0 => []
  | n + 1 => t :: altFrom (otherId t) n

def countConnects : List Event → Nat
  | [] => 0
  | Event.connect :: es => countConnects es + 1
  | Event.handler _ _ :: es => countConnects es

/-- Consistency of a server state with the accept counter: slot `i` is
unspawned exactly while fewer than `i` connections were accepted.  Holds in
every state reachable from `initSys`. -/
def WF (s : SysState) : Prop :=
  (s.status1 = Status.notSpawned ↔ s.accepted = 0) ∧
  (s.status2 = Status.notSpawned ↔ s.accepted ≤ 1)

/-- Observable outcome of one iteration of the client loop: the payload
sent (if any), the counter afterwards, and how long the iteration sleeps
(in milliseconds). -/
structure ClientStepOut where
  sent : Option String
  counter : Int
  sleepMs : Nat
deriving DecidableEq

/-- One iteration of the client loop (client.py lines 12-23).  On `"GO"`:
send `f"{client_name}:{current_number}"`, advance the counter by 2, sleep
1s.  On `"WAIT"`: sleep 0.1s.  Any other response matches neither branch:
nothing is sent, nothing sleeps, the counter is unchanged and the loop
re-enters the `recv`. -/
def client_step (client_name : String) (current_number : Int) (response : String) :
    ClientStepOut :=
  if response = "GO" then
    ⟨some (client_name ++ ":" ++ toString current_number), current_number + 2, 1000⟩
  else if response = "WAIT" then
    ⟨none, current_number, 100⟩
  else
    ⟨none, current_number, 0⟩

/-- Run the client loop over a list of received responses, collecting the
payloads sent, the final counter, and the total time slept. -/
def clientRun (client_name : String) : Int → List String → List String × Int × Nat
  | c, [] => ([], c, 0)
  | c, r :: rs =>
    let out := client_step client_name c r
    let rest := clientRun client_name out.counter rs
    (out.sent.toList ++ rest.1, rest.2.1, out.sleepMs + rest.2.2)

/-- `n` rounds of the lockstep exchange: in each round the server grants
`GO` first to `Client1`, then to `Client2` (the alternating grant order the
arbiter produces), and each client runs `client_step` on its `GO`.  Returns
the transmitted payloads in wire order. -/
def lockstepRun : Nat → Int → Int → List String
  | 0, _, _ => []
  | n + 1, c1, c2 =>
    let o1 := client_step "Client1" c1 "GO"
    let o2 := client_step "Client2" c2 "GO"
    o1.sent.toList ++ o2.sent.toList ++ lockstepRun n o1.counter o2.counter

/-! ## Helper lemmas about a single handler iteration -/

theorem otherId_cases (client_id : Nat) : otherId client_id = 1 ∨ otherId client_id = 2 := by
  unfold otherId
  split <;> simp

theorem otherId_otherId {client_id : Nat} (h : client_id = 1 ∨ client_id = 2) :
    otherId (otherId client_id) = client_id := by
  rcases h with h | h <;> subst h <;> rfl

theorem step_turn_of_accepted_none {client_id t : Nat} {inp : NetInput}
    (h : (handle_client_step client_id t inp).accepted = none) :
    (handle_client_step client_id t inp).turn = t := by
  cases inp with
  | connError e =>
    simp only [handle_client_step]
    split <;> rfl
  | reply data =>
    simp only [handle_client_step] at h ⊢
    by_cases ht : t = client_id
    · simp only [if_pos ht] at h ⊢
      by_cases hd : data = ""
      · simp [hd]
      · simp only [if_neg hd] at h ⊢
        cases hsp : splitParse data with
        | ok m => rw [hsp] at h; simp at h
        | error e => cases e <;> rfl
    · simp [ht]

theorem step_accepted_some {client_id t : Nat} {inp : NetInput} {m : String × String}
    (h : (handle_client_step client_id t inp).accepted = some m) :
    t = client_id ∧ (handle_client_step client_id t inp).turn = otherId client_id := by
  cases inp with
  | connError e =>
    simp only [handle_client_step] at h
    split at h <;> simp_all
  | reply data =>
    simp only [handle_client_step] at h ⊢
    by_cases ht : t = client_id
    · simp only [if_pos ht] at h ⊢
      by_cases hd : data = ""
      · simp [hd] at h
      · simp only [if_neg hd] at h ⊢
        cases hsp : splitParse data with
        | ok m' =>
          rw [hsp] at h
          simp only [Option.some.injEq] at h
          subst h
          exact ⟨ht, rfl⟩
        | error e => rw [hsp] at h; cases e <;> simp [caughtByHandler] at h
    · simp [ht] at h

theorem step_sent_go {client_id t : Nat} {inp : NetInput}
    (h : (handle_client_step client_id t inp).sent = some Signal.GO) :
    t = client_id := by
  cases inp with
  | connError e =>
    simp only [handle_client_step] at h
    split at h <;> simp_all
  | reply data =>
    simp only [handle_client_step] at h
    by_cases ht : t = client_id
    · exact ht
    · simp [ht] at h

/-! ## Helper lemmas about whole-server transitions -/

theorem sysStep_connect_char {s : SysState} {p : SysState × Option (Nat × StepOut)}
    (h : sysStep s Event.connect = some p) :
    p.2 = none ∧ p.1.turn = s.turn ∧ p.1.accepted = s.accepted + 1 := by
  simp only [sysStep] at h
  split at h
  · injection h with h
    subst h
    exact ⟨rfl, rfl, rfl⟩
  · cases h

theorem sysStep_handler_char {s : SysState} {id : Nat} {inp : NetInput}
    {p : SysState × Option (Nat × StepOut)}
    (h : sysStep s (Event.handler id inp) = some p) :
    p.2 = some (id, handle_client_step id s.turn inp) ∧
    p.1.turn = (handle_client_step id s.turn inp).turn ∧
    (id = 1 ∨ id = 2) ∧ s.statusOf id = Status.active ∧
    p.1.accepted = s.accepted := by
  simp only [sysStep] at h
  split at h
  · injection h with h
    subst h
    rename_i hcond
    exact ⟨rfl, rfl, hcond.1, hcond.2, rfl⟩
  · cases h

theorem acceptedLog_cons_none {i : Nat} {o : StepOut} {l : List (Nat × StepOut)}
    (h : o.accepted = none) : acceptedLog ((i, o) :: l) = acceptedLog l := by
  simp [acceptedLog, h]

theorem acceptedLog_cons_some {i : Nat} {o : StepOut} {l : List (Nat × StepOut)}
    {m : String × String} (h : o.accepted = some m) :
    acceptedLog ((i, o) :: l) = (i, m) :: acceptedLog l := by
  simp [acceptedLog, h]

theorem runSys_cons_none {s : SysState} {e : Event} {es : List Event}
    (h : sysStep s e = none) : runSys s (e :: es) = runSys s es := by
  simp [runSys, h]

theorem runSys_cons_some {s s' : SysState} {log : Option (Nat × StepOut)}
    {e : Event} {es : List Event} (h : sysStep s e = some (s', log)) :
    runSys s (e :: es) = ((runSys s' es).1, log.toList ++ (runSys s' es).2) := by
  simp [runSys, h]

/-- Core invariant: starting from any state whose turn is a valid identity,
the accepted identities of any execution form the alternating sequence
that starts at that turn, and the final turn is that turn again after an
even number of accepted messages and the other identity after an odd
number. -/
theorem runSys_alternation (tr : List Event) :
    ∀ s : SysState, s.turn = 1 ∨ s.turn = 2 →
      (acceptedLog (runSys s tr).2).map Prod.fst =
        altFrom s.turn (acceptedLog (runSys s tr).2).length ∧
      (runSys s tr).1.turn =
        (if (acceptedLog (runSys s tr).2).length % 2 = 0 then s.turn
         else otherId s.turn) := by
  induction tr with
  | nil =>
    intro s hs
    simp [runSys, acceptedLog, altFrom]
  | cons e es ih =>
    intro s hs
    cases hstep : sysStep s e with
    | none =>
      rw [runSys_cons_none hstep]
      exact ih s hs
    | some p =>
      obtain ⟨s', log⟩ := p
      rw [runSys_cons_some hstep]
      cases e with
      | connect =>
        have h2 : log = none := (sysStep_connect_char hstep).1
        have hturn : s'.turn = s.turn := (sysStep_connect_char hstep).2.1
        subst h2
        have hs' : s'.turn = 1 ∨ s'.turn = 2 := by rw [hturn]; exact hs
        obtain ⟨ihl, iht⟩ := ih s' hs'
        rw [hturn] at ihl iht
        exact ⟨ihl, iht⟩
      | handler id inp =>
        have hlog : log = some (id, handle_client_step id s.turn inp) :=
          (sysStep_handler_char hstep).1
        have hturn : s'.turn = (handle_client_step id s.turn inp).turn :=
          (sysStep_handler_char hstep).2.1
        have hid : id = 1 ∨ id = 2 := (sysStep_handler_char hstep).2.2.1
        subst hlog
        cases hacc : (handle_client_step id s.turn inp).accepted with
        | none =>
          have ht : (handle_client_step id s.turn inp).turn = s.turn :=
            step_turn_of_accepted_none hacc
          have hturn' : s'.turn = s.turn := hturn.trans ht
          have hs' : s'.turn = 1 ∨ s'.turn = 2 := by rw [hturn']; exact hs
          obtain ⟨ihl, iht⟩ := ih s' hs'
          rw [hturn'] at ihl iht
          simp only [Option.toList, List.cons_append, List.nil_append,
            acceptedLog_cons_none hacc]
          exact ⟨ihl, iht⟩
        | some m =>
          obtain ⟨htid, hflip⟩ := step_accepted_some hacc
          have hturn' : s'.turn = otherId id := hturn.trans hflip
          have hs' : s'.turn = 1 ∨ s'.turn = 2 := by
            rw [hturn']; exact otherId_cases id
          obtain ⟨ihl, iht⟩ := ih s' hs'
          rw [hturn'] at ihl iht
          simp only [Option.toList, List.cons_append, List.nil_append]
          simp only [acceptedLog_cons_some hacc]
          constructor
          · rw [List.map_cons, List.length_cons, altFrom]
            rw [← htid] at ihl ⊢
            exact List.cons_eq_cons.mpr ⟨rfl, ihl⟩
          · rw [List.length_cons]
            rw [← htid] at iht
            by_cases hpar : (acceptedLog (runSys s' es).2).length % 2 = 0
            · have hpar' : ¬((acceptedLog (runSys s' es).2).length + 1) % 2 = 0 := by
                omega
              rw [if_pos hpar] at iht
              rw [if_neg hpar', iht, htid]
            · have hpar' : ((acceptedLog (runSys s' es).2).length + 1) % 2 = 0 := by
                omega
              rw [if_neg hpar] at iht
              rw [if_pos hpar', iht, htid, otherId_otherId hid]

/-! ## Claim theorems -/

/-- C1: in every execution of the server, a handler iteration accepts a
message only when the shared turn equals its session identity, exactly the
accepting iterations flip the turn to the other identity (all others leave
it unchanged), and consequently the accepted participant identities
strictly alternate starting with 1: 1,2,1,2,... -/
theorem C1_accepted_identities_alternate :
    (∀ (client_id t : Nat) (inp : NetInput) (m : String × String),
       (handle_client_step client_id t inp).accepted = some m → t = client_id) ∧
    (∀ (client_id t : Nat) (inp : NetInput) (m : String × String),
       (handle_client_step client_id t inp).accepted = some m →
         (handle_client_step client_id t inp).turn = otherId client_id) ∧
    (∀ (client_id t : Nat) (inp : NetInput),
       (handle_client_step client_id t inp).accepted = none →
         (handle_client_step client_id t inp).turn = t) ∧
    (∀ trace : List Event,
       acceptedIds trace = altFrom 1 (acceptedIds trace).length) := by
  refine ⟨fun c t i m h => (step_accepted_some h).1,
          fun c t i m h => (step_accepted_some h).2,
          fun c t i h => step_turn_of_accepted_none h,
          fun trace => ?_⟩
  show (acceptedLog (runSys initSys trace).2).map Prod.fst =
    altFrom 1 ((acceptedLog (runSys initSys trace).2).map Prod.fst).length
  rw [List.length_map]
  exact (runSys_alternation trace initSys (Or.inl rfl)).1

/-- Witness for C1: a concrete accepting iteration (session 1 delivering
"Client1:1" while the turn is 1), a concrete non-accepting iteration, and a
concrete execution whose accepted identities are the alternating prefix. -/
theorem C1_witness :
    (1 : Nat) = 1 ∧
    (handle_client_step 1 1 (NetInput.reply "Client1:1")).turn = otherId 1 ∧
    (handle_client_step 1 2 (NetInput.reply "x")).turn = 2 ∧
    acceptedIds [Event.connect, Event.handler 1 (NetInput.reply "Client1:1")] =
      altFrom 1 (acceptedIds [Event.connect,
        Event.handler 1 (NetInput.reply "Client1:1")]).length :=
  ⟨C1_accepted_identities_alternate.1 1 1 (NetInput.reply "Client1:1")
      ("Client1", "1") (by decide),
   C1_accepted_identities_alternate.2.1 1 1 (NetInput.reply "Client1:1")
      ("Client1", "1") (by decide),
   C1_accepted_identities_alternate.2.2.1 1 2 (NetInput.reply "x") (by decide),
   C1_accepted_identities_alternate.2.2.2
      [Event.connect, Event.handler 1 (NetInput.reply "Client1:1")]⟩

/-- C2: the shared turn variable is 1 at server startup, and after the N
accepted messages of any execution it equals 1 when N is even and 2 when N
is odd. -/
theorem C2_turn_parity :
    initSys.turn = 1 ∧
    ∀ trace : List Event,
      (runSys initSys trace).1.turn =
        if (acceptedLog (runSys initSys trace).2).length % 2 = 0 then 1 else 2 := by
  refine ⟨rfl, fun trace => ?_⟩
  have h := (runSys_alternation trace initSys (Or.inl rfl)).2
  have h1 : initSys.turn = 1 := rfl
  have h2 : otherId 1 = 2 := rfl
  rw [h1, h2] at h
  exact h

/-- C3: "GO" is sent to a session only when, under the lock, the shared
turn equals that session's identity — as a fact about a single handler
iteration and about any whole-server transition. -/
theorem C3_go_only_on_own_turn :
    (∀ (client_id t : Nat) (inp : NetInput),
       (handle_client_step client_id t inp).sent = some Signal.GO →
         t = client_id) ∧
    (∀ (s : SysState) (id : Nat) (inp : NetInput)
       (p : SysState × Option (Nat × StepOut)) (q : Nat × StepOut),
       sysStep s (Event.handler id inp) = some p → p.2 = some q →
       q.2.sent = some Signal.GO → s.turn = id) := by
  refine ⟨fun c t i h => step_sent_go h, fun s id inp p q hp hlog hgo => ?_⟩
  have hchar := sysStep_handler_char hp
  rw [hchar.1] at hlog
  cases hlog
  exact step_sent_go hgo

/-- Witness for C3: a concrete handler iteration and a concrete server
transition in which "GO" is really sent, with the turn equal to the
session's identity. -/
theorem C3_witness :
    (1 : Nat) = 1 ∧ SysState.turn ⟨2, 1, Status.active, Status.active⟩ = 1 :=
  ⟨C3_go_only_on_own_turn.1 1 1 (NetInput.reply "a:1") (by decide),
   C3_go_only_on_own_turn.2 ⟨2, 1, Status.active, Status.active⟩ 1
     (NetInput.reply "a:1")
     (⟨2, 2, Status.active, Status.active⟩,
      some (1, ⟨2, HandlerResult.running, some Signal.GO, some ("a", "1"), false⟩))
     (1, ⟨2, HandlerResult.running, some Signal.GO, some ("a", "1"), false⟩)
     (by decide) (by decide) (by decide)⟩

/-- C5: an empty read while it is the session's turn is the graceful
disconnect path: the handler sends GO, reads empty and returns — the
`returned` outcome, not the logged-error path and not a crash — leaving the
turn unchanged; at the server level only that session's slot moves to
`returned`, and the other session's slot (and the rest of the state) is
untouched, so the server keeps running. -/
theorem C5_empty_read_graceful :
    (∀ client_id : Nat,
       handle_client_step client_id client_id (NetInput.reply "") =
         ⟨client_id, HandlerResult.returned, some Signal.GO, none, false⟩) ∧
    (∀ s : SysState, s.turn = 1 → s.status1 = Status.active →
       sysStep s (Event.handler 1 (NetInput.reply "")) =
         some (⟨s.accepted, s.turn, Status.returned, s.status2⟩,
               some (1, ⟨s.turn, HandlerResult.returned, some Signal.GO, none,
                         false⟩))) ∧
    (∀ s : SysState, s.turn = 2 → s.status2 = Status.active →
       sysStep s (Event.handler 2 (NetInput.reply "")) =
         some (⟨s.accepted, s.turn, s.status1, Status.returned⟩,
               some (2, ⟨s.turn, HandlerResult.returned, some Signal.GO, none,
                         false⟩))) := by
  refine ⟨fun c => by simp [handle_client_step], fun s h1 h2 => ?_, fun s h1 h2 => ?_⟩
  · simp [sysStep, SysState.statusOf, h2, h1, handle_client_step, resultStatus]
  · simp [sysStep, SysState.statusOf, h2, h1, handle_client_step, resultStatus]

/-- Witness for C5: the graceful empty-read disconnect on concrete states
for each of the two sessions. -/
theorem C5_witness :
    sysStep ⟨2, 1, Status.active, Status.active⟩
        (Event.handler 1 (NetInput.reply "")) =
      some (⟨2, 1, Status.returned, Status.active⟩,
            some (1, ⟨1, HandlerResult.returned, some Signal.GO, none, false⟩)) ∧
    sysStep ⟨2, 2, Status.active, Status.active⟩
        (Event.handler 2 (NetInput.reply "")) =
      some (⟨2, 2, Status.active, Status.returned⟩,
            some (2, ⟨2, HandlerResult.returned, some Signal.GO, none, false⟩)) :=
  ⟨C5_empty_read_graceful.2.1 ⟨2, 1, Status.active, Status.active⟩ rfl rfl,
   C5_empty_read_graceful.2.2 ⟨2, 2, Status.active, Status.active⟩ rfl rfl⟩

/-- C6: a ConnectionResetError/BrokenPipeError in a handler iteration is
caught by the `except` clause: the handler logs the disconnect and ends in
the `disconnected` outcome — never the uncaught-crash outcome — leaving the
turn unchanged; at the server level only that session's slot becomes
`disconnected` while the other session's slot is untouched, so the server
process keeps running and the other session is unaffected. -/
theorem C6_conn_error_isolated :
    (∀ (client_id t : Nat) (e : ConnErr),
       handle_client_step client_id t (NetInput.connError e) =
         ⟨t, HandlerResult.disconnected, none, none, true⟩) ∧
    (∀ (s : SysState) (e : ConnErr), s.status1 = Status.active →
       sysStep s (Event.handler 1 (NetInput.connError e)) =
         some (⟨s.accepted, s.turn, Status.disconnected, s.status2⟩,
               some (1, ⟨s.turn, HandlerResult.disconnected, none, none, true⟩))) ∧
    (∀ (s : SysState) (e : ConnErr), s.status2 = Status.active →
       sysStep s (Event.handler 2 (NetInput.connError e)) =
         some (⟨s.accepted, s.turn, s.status1, Status.disconnected⟩,
               some (2, ⟨s.turn, HandlerResult.disconnected, none, none,
                         true⟩))) := by
  refine ⟨fun c t e => by cases e <;> rfl, fun s e h => ?_, fun s e h => ?_⟩
  · cases e <;>
      simp [sysStep, SysState.statusOf, h, handle_client_step, caughtByHandler,
        ConnErr.toPyError, resultStatus]
  · cases e <;>
      simp [sysStep, SysState.statusOf, h, handle_client_step, caughtByHandler,
        ConnErr.toPyError, resultStatus]

/-- Witness for C6: a concrete reset on session 1 and a concrete broken
pipe on session 2, each leaving the other session's slot active. -/
theorem C6_witness :
    sysStep ⟨2, 1, Status.active, Status.active⟩
        (Event.handler 1 (NetInput.connError ConnErr.reset)) =
      some (⟨2, 1, Status.disconnected, Status.active⟩,
            some (1, ⟨1, HandlerResult.disconnected, none, none, true⟩)) ∧
    sysStep ⟨2, 1, Status.active, Status.active⟩
        (Event.handler 2 (NetInput.connError ConnErr.brokenPipe)) =
      some (⟨2, 1, Status.active, Status.disconnected⟩,
            some (2, ⟨1, HandlerResult.disconnected, none, none, true⟩)) :=
  ⟨C6_conn_error_isolated.2.1 ⟨2, 1, Status.active, Status.active⟩
     ConnErr.reset rfl,
   C6_conn_error_isolated.2.2 ⟨2, 1, Status.active, Status.active⟩
     ConnErr.brokenPipe rfl⟩

/-- C7: a non-empty payload whose colon-split does not have exactly two
fields makes the unpacking raise a ValueError, which the `except` clause
(reset/broken-pipe only) does not catch: the iteration ends in the
`crashed` outcome — the handler thread dies, deterministically — with the
turn unchanged and nothing logged as a disconnect; at the server level only
that session's slot becomes `crashed` and the other session's slot is
untouched, so the server process survives. -/
theorem C7_malformed_payload_kills_handler (data : String)
    (hne : data ≠ "") (hsplit : (pySplitColon data).length ≠ 2) :
    splitParse data = Except.error PyError.valueError ∧
    caughtByHandler PyError.valueError = false ∧
    (∀ client_id : Nat,
       handle_client_step client_id client_id (NetInput.reply data) =
         ⟨client_id, HandlerResult.crashed, some Signal.GO, none, false⟩) ∧
    (∀ s : SysState, s.turn = 1 → s.status1 = Status.active →
       sysStep s (Event.handler 1 (NetInput.reply data)) =
         some (⟨s.accepted, s.turn, Status.crashed, s.status2⟩,
               some (1, ⟨s.turn, HandlerResult.crashed, some Signal.GO, none,
                         false⟩))) := by
  have hsp : splitParse data = Except.error PyError.valueError := by
    rcases hL : pySplitColon data with _ | ⟨a, t1⟩
    · simp [splitParse, hL]
    · rcases t1 with _ | ⟨b, t2⟩
      · simp [splitParse, hL]
      · rcases t2 with _ | ⟨c, t3⟩
        · rw [hL] at hsplit; simp at hsplit
        · simp [splitParse, hL]
  have hstep : ∀ client_id : Nat,
      handle_client_step client_id client_id (NetInput.reply data) =
        ⟨client_id, HandlerResult.crashed, some Signal.GO, none, false⟩ := by
    intro c
    simp [handle_client_step, hne, hsp, caughtByHandler]
  refine ⟨hsp, rfl, hstep, fun s h1 h2 => ?_⟩
  simp [sysStep, SysState.statusOf, h2, h1, handle_client_step, hne, hsp,
    caughtByHandler, resultStatus]

/-- Witness for C7: the payload "hello" has no colon, so its split has one
field; delivered to session 1 while both sessions are active and the turn
is 1, it crashes only that handler. -/
theorem C7_witness :
    splitParse "hello" = Except.error PyError.valueError ∧
    caughtByHandler PyError.valueError = false ∧
    handle_client_step 1 1 (NetInput.reply "hello") =
      ⟨1, HandlerResult.crashed, some Signal.GO, none, false⟩ ∧
    sysStep ⟨2, 1, Status.active, Status.active⟩
        (Event.handler 1 (NetInput.reply "hello")) =
      some (⟨2, 1, Status.crashed, Status.active⟩,
            some (1, ⟨1, HandlerResult.crashed, some Signal.GO, none, false⟩)) := by
  have h := C7_malformed_payload_kills_handler "hello" (by decide) (by decide)
  exact ⟨h.1, h.2.1, h.2.2.1 1,
         h.2.2.2 ⟨2, 1, Status.active, Status.active⟩ rfl rfl⟩

/-- The transmitted sequence of `n` lockstep rounds with counters starting
at `c` and `c + 1`: the payload at overall position `k` is sent by Client1
when `k` is even and by Client2 when `k` is odd, and carries the number
`c + k`. -/
theorem lockstepRun_formula (n : Nat) :
    ∀ c : Int, lockstepRun n c (c + 1) =
      (List.range (2 * n)).map fun k : Nat =>
        (if k % 2 = 0 then "Client1" else "Client2") ++ ":" ++
          toString (c + (k : Int)) := by
  induction n with
  | zero => intro c; simp [lockstepRun]
  | succ n ih =>
    intro c
    have h2 : 2 * (n + 1) = 2 * n + 1 + 1 := by ring
    rw [h2, List.range_succ_eq_map, List.range_succ_eq_map]
    have hc : c + 1 + 2 = c + 2 + 1 := by ring
    have hl : lockstepRun (n + 1) c (c + 1) =
        ("Client1" ++ ":" ++ toString c) ::
        ("Client2" ++ ":" ++ toString (c + 1)) ::
        lockstepRun n (c + 2) (c + 1 + 2) := by
      simp [lockstepRun, client_step, Option.toList]
    rw [hl, hc, ih (c + 2)]
    simp only [List.map_cons, List.map_map]
    refine List.cons_eq_cons.mpr ⟨by simp, List.cons_eq_cons.mpr ⟨by simp, ?_⟩⟩
    refine List.map_congr_left fun k hk => ?_
    have hmod : (k + 1 + 1) % 2 = k % 2 := Nat.add_mod_right k 2
    have hcast : c + ((k + 1 + 1 : Nat) : Int) = c + 2 + (k : Int) := by
      push_cast; ring
    simp only [Function.comp, Nat.succ_eq_add_one, hmod, hcast]

/-- C4: on each "GO" the client transmits `<name>:<counter>` and advances
its counter by exactly 2; with Client1 starting at 1 and Client2 at 2 and
the GO grants alternating between them (as the arbiter produces), the
transmitted sequence is "Client1:1", "Client2:2", "Client1:3", "Client2:4",
the payload at position k being sent by Client1 for even k and Client2 for
odd k with number k+1, for as many rounds as desired. -/
theorem C4_lockstep_transmissions :
    (∀ (client_name : String) (current_number : Int),
       client_step client_name current_number "GO" =
         ⟨some (client_name ++ ":" ++ toString current_number),
          current_number + 2, 1000⟩) ∧
    (∀ n : Nat, lockstepRun n 1 2 =
       (List.range (2 * n)).map fun k : Nat =>
         (if k % 2 = 0 then "Client1" else "Client2") ++ ":" ++
           toString ((k : Int) + 1)) ∧
    lockstepRun 2 1 2 = ["Client1:1", "Client2:2", "Client1:3", "Client2:4"] := by
  refine ⟨fun name c => by simp [client_step], fun n => ?_, by decide⟩
  have h := lockstepRun_formula n 1
  have h12 : (1 : Int) + 1 = 2 := by norm_num
  rw [h12] at h
  rw [h]
  refine List.map_congr_left fun k hk => ?_
  have hcomm : (1 : Int) + (k : Int) = (k : Int) + 1 := by ring
  rw [hcomm]

/-- C9: a response that is neither "GO" nor "WAIT" — such as the empty
string a closed connection yields — matches no branch of the client loop:
nothing is sent, there is no sleep, the counter is unchanged, and the loop
goes straight back to the read; in particular a run fed only empty reads
sends nothing, sleeps a total of zero, and never exits — a busy loop, not a
fatal condition. -/
theorem C9_unknown_signal_busy_loop :
    (∀ (client_name : String) (current_number : Int) (response : String),
       response ≠ "GO" → response ≠ "WAIT" →
       client_step client_name current_number response =
         ⟨none, current_number, 0⟩) ∧
    (∀ (client_name : String) (current_number : Int) (response : String)
       (rest : List String), response ≠ "GO" → response ≠ "WAIT" →
       clientRun client_name current_number (response :: rest) =
         clientRun client_name current_number rest) ∧
    (∀ (client_name : String) (current_number : Int) (n : Nat),
       clientRun client_name current_number (List.replicate n "") =
         ([], current_number, 0)) := by
  have hstep : ∀ (client_name : String) (current_number : Int)
      (response : String), response ≠ "GO" → response ≠ "WAIT" →
      client_step client_name current_number response =
        ⟨none, current_number, 0⟩ := by
    intro name c r h1 h2
    simp [client_step, h1, h2]
  have hrun : ∀ (client_name : String) (current_number : Int)
      (response : String) (rest : List String),
      response ≠ "GO" → response ≠ "WAIT" →
      clientRun client_name current_number (response :: rest) =
        clientRun client_name current_number rest := by
    intro name c r rest h1 h2
    simp [clientRun, hstep name c r h1 h2, Option.toList]
  refine ⟨hstep, hrun, fun name c n => ?_⟩
  induction n with
  | zero => simp [clientRun]
  | succ n ih => rw [List.replicate_succ, hrun name c "" _ (by decide) (by decide), ih]

/-- Witness for C9: the concrete response "" (what `recv` yields after the
server closes the socket) takes no branch and leaves the loop state
untouched. -/
theorem C9_witness :
    client_step "Client1" 1 "" = ⟨none, 1, 0⟩ ∧
    clientRun "Client1" 1 ["", "GO"] = clientRun "Client1" 1 ["GO"] ∧
    clientRun "Client1" 1 (List.replicate 3 "") = ([], 1, 0) :=
  ⟨C9_unknown_signal_busy_loop.1 "Client1" 1 "" (by decide) (by decide),
   C9_unknown_signal_busy_loop.2.1 "Client1" 1 "" ["GO"] (by decide) (by decide),
   C9_unknown_signal_busy_loop.2.2 "Client1" 1 3⟩

/-! ## Machinery for the single-client and dead-owner claims -/

theorem sysStep_connect_state {s : SysState} {p : SysState × Option (Nat × StepOut)}
    (h : sysStep s Event.connect = some p) :
    p.1 = ⟨s.accepted + 1, s.turn,
           if s.accepted = 0 then Status.active else s.status1,
           if s.accepted = 1 then Status.active else s.status2⟩ ∧
    p.2 = none ∧ s.accepted < 2 := by
  simp only [sysStep] at h
  split at h
  · injection h with h
    subst h
    exact ⟨rfl, rfl, by assumption⟩
  · cases h

theorem sysStep_handler_state {s : SysState} {id : Nat} {inp : NetInput}
    {p : SysState × Option (Nat × StepOut)}
    (h : sysStep s (Event.handler id inp) = some p) :
    p.1 = ⟨s.accepted, (handle_client_step id s.turn inp).turn,
           if id = 1 then resultStatus (handle_client_step id s.turn inp).result
           else s.status1,
           if id = 2 then resultStatus (handle_client_step id s.turn inp).result
           else s.status2⟩ ∧
    p.2 = some (id, handle_client_step id s.turn inp) ∧
    (id = 1 ∨ id = 2) ∧ s.statusOf id = Status.active := by
  simp only [sysStep] at h
  split at h
  · injection h with h
    subst h
    rename_i hcond
    exact ⟨rfl, rfl, hcond.1, hcond.2⟩
  · cases h

theorem resultStatus_ne_notSpawned (r : HandlerResult) :
    resultStatus r ≠ Status.notSpawned := by
  cases r <;> simp [resultStatus]

/-- A handler iteration run while the turn is not the session's own leaves
the turn untouched, accepts nothing, and never sends GO. -/
theorem step_not_my_turn {client_id t : Nat} {inp : NetInput}
    (h : t ≠ client_id) :
    (handle_client_step client_id t inp).turn = t ∧
    (handle_client_step client_id t inp).accepted = none ∧
    (handle_client_step client_id t inp).sent ≠ some Signal.GO := by
  cases inp with
  | connError e => cases e <;> simp [handle_client_step, caughtByHandler, ConnErr.toPyError]
  | reply data => simp [handle_client_step, h]

/-- Slot consistency holds at startup. -/
theorem wf_initSys : WF initSys := by
  constructor <;> simp [initSys, WF]

/-- Slot consistency is preserved by every possible transition. -/
theorem wf_preserved {s : SysState} {e : Event}
    {p : SysState × Option (Nat × StepOut)}
    (hwf : WF s) (h : sysStep s e = some p) : WF p.1 := by
  obtain ⟨w1, w2⟩ := hwf
  cases e with
  | connect =>
    obtain ⟨hs, -, hlt⟩ := sysStep_connect_state h
    rw [hs]
    unfold WF
    dsimp only
    refine ⟨⟨?_, ?_⟩, ⟨?_, ?_⟩⟩
    · intro hns
      split at hns
      · cases hns
      · rename_i h0
        exact absurd (w1.mp hns) h0
    · intro h0
      exact absurd h0 (by omega)
    · intro hns
      split at hns
      · cases hns
      · rename_i h1
        have h0 : s.accepted ≤ 1 := w2.mp hns
        omega
    · intro hle
      rw [if_neg (by omega : ¬s.accepted = 1)]
      exact w2.mpr (by omega)
  | handler id inp =>
    obtain ⟨hs, -, hid, hact⟩ := sysStep_handler_state h
    rw [hs]
    unfold WF
    dsimp only
    refine ⟨⟨?_, ?_⟩, ⟨?_, ?_⟩⟩
    · intro hns
      split at hns
      · exact absurd hns (resultStatus_ne_notSpawned _)
      · exact w1.mp hns
    · intro h0
      split
      · rename_i h1
        subst h1
        rw [SysState.statusOf, if_pos rfl] at hact
        exact absurd (hact.symm.trans (w1.mpr h0)) (by decide)
      · exact w1.mpr h0
    · intro hns
      split at hns
      · exact absurd hns (resultStatus_ne_notSpawned _)
      · exact w2.mp hns
    · intro h0
      split
      · rename_i h2
        subst h2
        rw [SysState.statusOf, if_neg (by decide)] at hact
        exact absurd (hact.symm.trans (w2.mpr h0)) (by decide)
      · exact w2.mpr h0

/-- A session-ending iteration never accepts a message: only the successful
parse leaves the handler in the `running` outcome. -/
theorem step_accepted_none_of_not_running {client_id t : Nat} {inp : NetInput}
    (h : (handle_client_step client_id t inp).result ≠ HandlerResult.running) :
    (handle_client_step client_id t inp).accepted = none := by
  cases inp with
  | connError e => cases e <;> rfl
  | reply data =>
    simp only [handle_client_step] at h ⊢
    by_cases ht : t = client_id
    · simp only [if_pos ht] at h ⊢
      by_cases hd : data = ""
      · simp [hd]
      · simp only [if_neg hd] at h ⊢
        cases hsp : splitParse data with
        | ok m => rw [hsp] at h; simp at h
        | error e => cases e <;> rfl
    · simp [ht] at h

/-- With slot 2 never spawned and at most one further connect possible, an
execution accepts at most one message (none if the turn is already 2),
never spawns slot 2, and never completes a second accept. -/
theorem runSys_single_client (tr : List Event) :
    ∀ s : SysState, s.status2 = Status.notSpawned →
      s.accepted + countConnects tr ≤ 1 → (s.turn = 1 ∨ s.turn = 2) →
      (acceptedLog (runSys s tr).2).length ≤ (if s.turn = 1 then 1 else 0) ∧
      (runSys s tr).1.status2 = Status.notSpawned ∧
      (runSys s tr).1.accepted ≤ 1 := by
  induction tr with
  | nil =>
    intro s h2 hcnt hturn
    refine ⟨by simp [runSys, acceptedLog], by simpa [runSys] using h2, ?_⟩
    simp only [runSys]
    simp only [countConnects] at hcnt
    omega
  | cons e es ih =>
    intro s h2 hcnt hturn
    cases hstep : sysStep s e with
    | none =>
      rw [runSys_cons_none hstep]
      apply ih s h2 _ hturn
      cases e <;> simp only [countConnects] at hcnt <;> omega
    | some p =>
      obtain ⟨s', log⟩ := p
      rw [runSys_cons_some hstep]
      cases e with
      | connect =>
        have hacc0 : s.accepted = 0 := by
          simp only [countConnects] at hcnt; omega
        have hes0 : countConnects es = 0 := by
          simp only [countConnects] at hcnt; omega
        have hS : s' = ⟨s.accepted + 1, s.turn,
            if s.accepted = 0 then Status.active else s.status1,
            if s.accepted = 1 then Status.active else s.status2⟩ :=
          (sysStep_connect_state hstep).1
        have hlog : log = none := (sysStep_connect_state hstep).2.1
        subst hS hlog
        have ihp := ih ⟨s.accepted + 1, s.turn,
            if s.accepted = 0 then Status.active else s.status1,
            if s.accepted = 1 then Status.active else s.status2⟩
          (by dsimp only; rw [if_neg (by omega)]; exact h2)
          (by dsimp only; omega) (by dsimp only; exact hturn)
        dsimp only at ihp
        simpa [Option.toList] using ihp
      | handler id inp =>
        obtain ⟨hs, hlog0, hid, hact⟩ := sysStep_handler_state hstep
        have hid1 : id = 1 := by
          rcases hid with h1 | h1
          · exact h1
          · subst h1
            rw [SysState.statusOf, if_neg (by decide)] at hact
            rw [h2] at hact
            cases hact
        subst hid1
        have hS : s' = ⟨s.accepted, (handle_client_step 1 s.turn inp).turn,
            resultStatus (handle_client_step 1 s.turn inp).result,
            s.status2⟩ := hs
        have hlog : log = some (1, handle_client_step 1 s.turn inp) := hlog0
        subst hS hlog
        have hcnt' : s.accepted + countConnects es ≤ 1 := by
          simpa only [countConnects] using hcnt
        cases hacc : (handle_client_step 1 s.turn inp).accepted with
        | none =>
          have hTurnEq : (handle_client_step 1 s.turn inp).turn = s.turn :=
            step_turn_of_accepted_none hacc
          simp only [Option.toList, List.cons_append, List.nil_append,
            acceptedLog_cons_none hacc]
          rw [hTurnEq]
          exact ih ⟨s.accepted, s.turn,
              resultStatus (handle_client_step 1 s.turn inp).result, s.status2⟩
            h2 hcnt' hturn
        | some m =>
          obtain ⟨ht1, hflip⟩ := step_accepted_some hacc
          have hTurn2 : (handle_client_step 1 s.turn inp).turn = 2 := by
            rw [hflip]; rfl
          simp only [Option.toList, List.cons_append, List.nil_append,
            acceptedLog_cons_some hacc]
          rw [hTurn2]
          have ihp := ih ⟨s.accepted, 2,
              resultStatus (handle_client_step 1 s.turn inp).result, s.status2⟩
            h2 hcnt' (Or.inr rfl)
          obtain ⟨ib, i2, i3⟩ := ihp
          have ib0 : (acceptedLog (runSys ⟨s.accepted, 2,
              resultStatus (handle_client_step 1 s.turn inp).result,
              s.status2⟩ es).2).length ≤ 0 := by
            simpa using ib
          refine ⟨?_, i2, i3⟩
          have hb1 : (if s.turn = 1 then (1 : Nat) else 0) = 1 := if_pos ht1
          rw [hb1, List.length_cons]
          omega

/-- Once the session whose identity equals the current turn has terminated,
every continuation keeps the turn at that value, accepts no further
message, and never sends GO to anyone. -/
theorem runSys_turn_frozen (tr : List Event) :
    ∀ (s : SysState) (j : Nat), (j = 1 ∨ j = 2) → WF s → s.turn = j →
      (s.statusOf j).isTerminated = true →
      (runSys s tr).1.turn = j ∧ acceptedLog (runSys s tr).2 = [] ∧
      ∀ q ∈ (runSys s tr).2, q.2.sent ≠ some Signal.GO := by
  induction tr with
  | nil =>
    intro s j hj hwf ht hterm
    exact ⟨by simpa [runSys] using ht, by simp [runSys, acceptedLog],
           by simp [runSys]⟩
  | cons e es ih =>
    intro s j hj hwf ht hterm
    cases hstep : sysStep s e with
    | none =>
      rw [runSys_cons_none hstep]
      exact ih s j hj hwf ht hterm
    | some p =>
      obtain ⟨s', log⟩ := p
      rw [runSys_cons_some hstep]
      have hwf' : WF s' := wf_preserved hwf hstep
      cases e with
      | connect =>
        have hS : s' = ⟨s.accepted + 1, s.turn,
            if s.accepted = 0 then Status.active else s.status1,
            if s.accepted = 1 then Status.active else s.status2⟩ :=
          (sysStep_connect_state hstep).1
        have hlog : log = none := (sysStep_connect_state hstep).2.1
        have hlt : s.accepted < 2 := (sysStep_connect_state hstep).2.2
        subst hlog
        have hterm' : (s'.statusOf j).isTerminated = true := by
          rcases hj with hj1 | hj1 <;> subst hj1
          · rw [SysState.statusOf, if_pos rfl] at hterm ⊢
            rw [hS]
            dsimp only
            have hne : s.status1 ≠ Status.notSpawned := by
              intro hx; rw [hx] at hterm; cases hterm
            rw [if_neg fun h0 => hne (hwf.1.mpr h0)]
            exact hterm
          · rw [SysState.statusOf, if_neg (by decide)] at hterm
            have hne : s.status2 ≠ Status.notSpawned := by
              intro hx; rw [hx] at hterm; cases hterm
            exact absurd (hwf.2.mpr (by omega)) hne
        have ht' : s'.turn = j := by
          rw [hS]; dsimp only; exact ht
        obtain ⟨a1, a2, a3⟩ := ih s' j hj hwf' ht' hterm'
        exact ⟨a1, a2, a3⟩
      | handler id inp =>
        obtain ⟨hs, hlog0, hid, hact⟩ := sysStep_handler_state hstep
        have hne : id ≠ j := by
          intro hx
          subst hx
          rw [hact] at hterm
          cases hterm
        have htne : s.turn ≠ id := by
          rw [ht]; exact fun hx => hne hx.symm
        obtain ⟨hto, hao, hso⟩ := step_not_my_turn htne
        have hS : s' = ⟨s.accepted, (handle_client_step id s.turn inp).turn,
            if id = 1 then resultStatus (handle_client_step id s.turn inp).result
            else s.status1,
            if id = 2 then resultStatus (handle_client_step id s.turn inp).result
            else s.status2⟩ := hs
        have hlog : log = some (id, handle_client_step id s.turn inp) := hlog0
        subst hlog
        have ht' : s'.turn = j := by
          rw [hS]; dsimp only; rw [hto]; exact ht
        have hterm' : (s'.statusOf j).isTerminated = true := by
          rcases hj with hj1 | hj1 <;> subst hj1
          · rw [SysState.statusOf, if_pos rfl] at hterm ⊢
            rw [hS]
            dsimp only
            rw [if_neg hne]
            exact hterm
          · rw [SysState.statusOf, if_neg (by decide)] at hterm ⊢
            rw [hS]
            dsimp only
            rw [if_neg hne]
            exact hterm
        obtain ⟨a1, a2, a3⟩ := ih s' j hj hwf' ht' hterm'
        refine ⟨a1, ?_, ?_⟩
        · simp only [Option.toList, List.cons_append, List.nil_append,
            acceptedLog_cons_none hao]
          exact a2
        · intro q hq
          simp only [Option.toList, List.cons_append, List.nil_append,
            List.mem_cons] at hq
          rcases hq with hq | hq
          · subst hq
            exact hso
          · exact a3 q hq

/-- C8 fails on its "no messages are ever exchanged" part: the first
client's handler thread is started right after the first accept (server.py
line 45), before the second accept is attempted.  Concretely, in the
execution [connect, handler 1 delivering "Client1:1"] only one connection
is ever made, the server has completed only its first accept, yet one
message has been accepted. -/
theorem C8_counterexample :
    countConnects [Event.connect,
        Event.handler 1 (NetInput.reply "Client1:1")] = 1 ∧
    (runSys initSys [Event.connect,
        Event.handler 1 (NetInput.reply "Client1:1")]).1.accepted = 1 ∧
    acceptedLog (runSys initSys [Event.connect,
        Event.handler 1 (NetInput.reply "Client1:1")]).2 =
      [(1, ("Client1", "1"))] := by
  decide

/-- C8 (amended): the server accepts exactly two connections, identity 1
going to the first connector and identity 2 to the second, and a third
connect is impossible; if only one client ever connects, the second accept
never completes (slot 2 stays unspawned and the accept counter stays at
most 1) and at most one message — not necessarily zero — is exchanged: the
first client's already-spawned handler can deliver exactly one message,
after which the turn is 2 forever. -/
theorem C8_amended_two_accepts_single_client :
    (sysStep initSys Event.connect =
       some (⟨1, 1, Status.active, Status.notSpawned⟩, none)) ∧
    (∀ s : SysState, s.accepted = 1 →
       sysStep s Event.connect =
         some (⟨2, s.turn, s.status1, Status.active⟩, none)) ∧
    (∀ s : SysState, 2 ≤ s.accepted → sysStep s Event.connect = none) ∧
    (∀ tr : List Event, countConnects tr ≤ 1 →
       (acceptedLog (runSys initSys tr).2).length ≤ 1 ∧
       (runSys initSys tr).1.status2 = Status.notSpawned ∧
       (runSys initSys tr).1.accepted ≤ 1) := by
  refine ⟨by decide, fun s h1 => ?_, fun s h2 => ?_, fun tr hc => ?_⟩
  · simp [sysStep, h1]
  · simp only [sysStep]
    rw [if_neg (by omega)]
  · have h := runSys_single_client tr initSys rfl
      (by simpa [initSys] using hc) (Or.inl rfl)
    refine ⟨?_, h.2.1, h.2.2⟩
    simpa using h.1

/-- Witness for the amended C8: the second accept on a concrete state with
one connection, the refused third accept, and a concrete one-connect
execution in which the lone client delivers one message and then only
polls: one message accepted, slot 2 never spawned. -/
theorem C8_amended_witness :
    sysStep ⟨1, 1, Status.active, Status.notSpawned⟩ Event.connect =
      some (⟨2, 1, Status.active, Status.active⟩, none) ∧
    sysStep ⟨2, 1, Status.active, Status.active⟩ Event.connect = none ∧
    ((acceptedLog (runSys initSys [Event.connect,
        Event.handler 1 (NetInput.reply "Client1:1"),
        Event.handler 1 (NetInput.reply "x:9")]).2).length ≤ 1 ∧
     (runSys initSys [Event.connect,
        Event.handler 1 (NetInput.reply "Client1:1"),
        Event.handler 1 (NetInput.reply "x:9")]).1.status2 =
       Status.notSpawned ∧
     (runSys initSys [Event.connect,
        Event.handler 1 (NetInput.reply "Client1:1"),
        Event.handler 1 (NetInput.reply "x:9")]).1.accepted ≤ 1) :=
  ⟨C8_amended_two_accepts_single_client.2.1
     ⟨1, 1, Status.active, Status.notSpawned⟩ rfl,
   C8_amended_two_accepts_single_client.2.2.1
     ⟨2, 1, Status.active, Status.active⟩ (by decide),
   C8_amended_two_accepts_single_client.2.2.2
     [Event.connect, Event.handler 1 (NetInput.reply "Client1:1"),
      Event.handler 1 (NetInput.reply "x:9")] (by decide)⟩

/-- C10: every session-ending handler outcome — the empty-read return, the
caught disconnect, and the uncaught parse crash — leaves the shared turn
unchanged; consequently, once the session whose identity equals the
current turn has terminated (in a slot-consistent state), the turn keeps
that value in every continuation, no further message is ever accepted, and
the surviving session is never sent GO — it only ever receives WAIT. -/
theorem C10_turn_frozen_after_owner_dies :
    (∀ (client_id t : Nat) (inp : NetInput),
       (handle_client_step client_id t inp).result ≠ HandlerResult.running →
       (handle_client_step client_id t inp).turn = t) ∧
    (∀ (s : SysState) (j : Nat) (tr : List Event),
       (j = 1 ∨ j = 2) → WF s → s.turn = j →
       (s.statusOf j).isTerminated = true →
       (runSys s tr).1.turn = j ∧ acceptedLog (runSys s tr).2 = [] ∧
       ∀ q ∈ (runSys s tr).2, q.2.sent ≠ some Signal.GO) :=
  ⟨fun _ _ _ h =>
     step_turn_of_accepted_none (step_accepted_none_of_not_running h),
   fun s j tr hj hwf ht hterm => runSys_turn_frozen tr s j hj hwf ht hterm⟩

/-- Witness for C10: a concrete session-ending iteration keeping the turn,
and a concrete state in which session 1 (who owned the turn) has returned,
where session 2's subsequent poll gets no GO and accepts nothing. -/
theorem C10_witness :
    (handle_client_step 1 1 (NetInput.reply "")).turn = 1 ∧
    ((runSys ⟨2, 1, Status.returned, Status.active⟩
        [Event.handler 2 (NetInput.reply "x:1")]).1.turn = 1 ∧
     acceptedLog (runSys ⟨2, 1, Status.returned, Status.active⟩
        [Event.handler 2 (NetInput.reply "x:1")]).2 = [] ∧
     ∀ q ∈ (runSys ⟨2, 1, Status.returned, Status.active⟩
        [Event.handler 2 (NetInput.reply "x:1")]).2,
       q.2.sent ≠ some Signal.GO) :=
  ⟨C10_turn_frozen_after_owner_dies.1 1 1 (NetInput.reply "") (by decide),
   C10_turn_frozen_after_owner_dies.2 ⟨2, 1, Status.returned, Status.active⟩ 1
     [Event.handler 2 (NetInput.reply "x:1")] (Or.inl rfl) (by simp [WF]) rfl rfl⟩
